import Mathlib

/-!
A shallow embedding, in Lean, of the collector's replication, verification and
retention subsystem: the filename/timestamp parsing shared utility, the
per-backend upload-with-verify-and-retry protocol, the catalog (the
`filestatus` table) together with its write operations, the incomplete-upload
query, the retention sweep, and the retrying database-write wrapper.  Pure
functions of the source become Lean functions; the effects that matter to the
verified properties (put/delete calls against a backend, notification emails,
local-file removals, catalog updates) are made explicit as returned traces or
counters.  External collaborators (the storage SDKs, the mailer, the file
system, the clock) are parameters of the embedding.
-/

namespace Collector

/-- Value of a decimal digit character, `none` when the character is not
a decimal digit. -/
def digitVal (c : Char) : Option Nat :=
  if 48 ≤ c.toNat && c.toNat ≤ 57 then some (c.toNat - 48) else none

/-- Accumulator loop for `parseDigits`. -/
def parseDigitsAux : List Char → Nat → Option Nat
  | [], acc => some acc
  | c :: cs, acc =>
    match digitVal c with
    | some d => parseDigitsAux cs (acc * 10 + d)
    | none => none

/-- The numeric value of a nonempty all-digit character list, `none`
otherwise. -/
def parseDigits (cs : List Char) : Option Nat :=
  match cs with
  | [] => none
  | _ :: _ => parseDigitsAux cs 0

/-- Python's `str.split(sep)` for a one-character separator: the (possibly
empty) chunks between occurrences of the separator.  Always returns at least
one chunk. -/
def pySplit (sep : Char) : List Char → List (List Char)
  | [] => [[]]
  | c :: cs =>
    if c = sep then [] :: pySplit sep cs
    else
      match pySplit sep cs with
      | [] => [[c]]
      | g :: gs => (c :: g) :: gs

/-- The full English month name produced by `strftime('%B')`. -/
def monthName : Nat → String
  | 1 => "January"
  | 2 => "February"
  | 3 => "March"
  | 4 => "April"
  | 5 => "May"
  | 6 => "June"
  | 7 => "July"
  | 8 => "August"
  | 9 => "September"
  | 10 => "October"
  | 11 => "November"
  | 12 => "December"
  | _ => ""

/-- Gregorian leap-year rule, as used by Python's `datetime` validity check. -/
def isLeap (y : Nat) : Bool :=
  y % 4 = 0 && (y % 100 ≠ 0 || y % 400 = 0)

/-- Number of days in a month, as enforced by the `datetime` constructor. -/
def daysInMonth (y m : Nat) : Nat :=
  match m with
  | 2 => if isLeap y then 29 else 28
  | 4 => 30
  | 6 => 30
  | 9 => 30
  | 11 => 30
  | _ => 31

/-- `strptime`'s `%Y` field: exactly four digits, and the `datetime`
constructor additionally requires the year to be at least 1. -/
def parseYear (cs : List Char) : Option Nat :=
  if cs.length = 4 then
    match parseDigits cs with
    | some y => if 1 ≤ y then some y else none
    | none => none
  else none

/-- A one- or two-digit `strptime` field with an inclusive range bound
(this is how the `%m`, `%d`, `%H`, `%M` and `%S` patterns behave). -/
def parseField2 (lo hi : Nat) (cs : List Char) : Option Nat :=
  if cs.length = 1 || cs.length = 2 then
    match parseDigits cs with
    | some v => if lo ≤ v && v ≤ hi then some v else none
    | none => none
  else none

/-- The capture timestamp carried inside a filename. -/
structure CaptureTime where
  year : Nat
  month : Nat
  day : Nat
  hour : Nat
  minute : Nat
  second : Nat
deriving DecidableEq, Repr

/-- Embeds the parsing core of `utils.extract_datetime_from_filename`:
`filename.split('_')[2]` is the date part, `filename.split('_')[3].split('.')[0]`
(with dashes turned into colons) is the time part, and the combined string is
validated by `strptime('%Y-%m-%d %H:%M:%S')`.  Any missing index, malformed
field or out-of-range component is the exceptional path of the source, which
returns the failure triple: here `none`. -/
def parseCaptureTime (filename : String) : Option CaptureTime :=
  let parts := pySplit '_' filename.toList
  match parts.get? 2, parts.get? 3 with
  | some dateStr, some timeRaw =>
    let timeStr := ((pySplit '.' timeRaw).headD []).map
      (fun c => if c = '-' then ':' else c)
    match pySplit '-' dateStr, pySplit ':' timeStr with
    | [ys, ms, ds], [hs, mis, ss] =>
      (match parseYear ys, parseField2 1 12 ms, parseField2 1 31 ds,
             parseField2 0 23 hs, parseField2 0 59 mis, parseField2 0 59 ss with
       | some y, some mo, some d, some h, some mi, some s =>
         if d ≤ daysInMonth y mo then
           some { year := y, month := mo, day := d, hour := h, minute := mi, second := s }
         else none
       | _, _, _, _, _, _ => none)
    | _, _ => none
  | _, _ => none

/-- Zero-padded fixed-width decimal rendering (`strftime`'s zero padding):
the `n` most significant decimal digits of `a`. -/
def padDigits : Nat → Nat → List Char
  | 0, _ => []
  | n + 1, a => Char.ofNat (48 + a / 10 ^ n) :: padDigits n (a % 10 ^ n)

/-- Two-digit zero-padded field. -/
def pad2 (a : Nat) : List Char := padDigits 2 a

/-- Four-digit zero-padded field. -/
def pad4 (a : Nat) : List Char := padDigits 4 a

/-- `strftime('%Y-%m-%d %H:%M:%S')` of a parsed capture time: the string the
source stores in the catalog's `datetime` column. -/
def fmtDatetime (t : CaptureTime) : String :=
  ⟨pad4 t.year ++ ['-'] ++ pad2 t.month ++ ['-'] ++ pad2 t.day ++ [' ']
    ++ pad2 t.hour ++ [':'] ++ pad2 t.minute ++ [':'] ++ pad2 t.second⟩

/-- `strftime('%Y-%m-%d')` of a date: the shape of the sweep's cutoff
parameter. -/
def fmtDate (y mo d : Nat) : String :=
  ⟨pad4 y ++ ['-'] ++ pad2 mo ++ ['-'] ++ pad2 d⟩

/-- `utils.extract_datetime_from_filename`: on success the triple
`(datetime string, year string, full month name)`; `none` embeds the
`(None, None, None)` failure triple of the source. -/
def extract_datetime_from_filename (filename : String) :
    Option (String × String × String) :=
  (parseCaptureTime filename).map fun t =>
    (fmtDatetime t, (⟨pad4 t.year⟩ : String), monthName t.month)

/-- The remote object key built by `upload_files_to_cloud`: the Python
f-string `"{year}/{month}/{file_name}"` interpolates the parse results, which
renders as the text `None` for each component when parsing failed (the source
does not guard this path). -/
def destinationKey (filename : String) : String :=
  match extract_datetime_from_filename filename with
  | some (_, y, m) => y ++ "/" ++ m ++ "/" ++ filename
  | none => "None/None/" ++ filename

/-- One row of the `filestatus` table, restricted to the columns the verified
properties depend on.  Statuses and flags keep the SQL 0/1 integer encoding
of the schema (`*status`: 0 = not uploaded, 1 = uploaded; `localstatus`:
1 = exists, 0 = deleted; `dataintegrity*`: 0 = not verified, 1 = verified);
nullable TEXT columns are `Option String`. -/
structure FileRecord where
  filename : String
  filetype : String
  gcpStatus : Nat := 0
  awsStatus : Nat := 0
  gcpDestination : Option String := none
  awsDestination : Option String := none
  awsBucket : Option String := none
  gcpBucket : Option String := none
  localstatus : Nat := 1
  localdestination : Option String := none
  dataintegrityAWS : Nat := 0
  dataintegrityGCP : Nat := 0
  datetime : Option String := none
deriving DecidableEq, Repr

/-- `databasewrite.insert_file_record`: a fresh row with default backend
columns, `localstatus = 1`, and the datetime string parsed from the filename
(NULL on parse failure).  A duplicate filename violates the UNIQUE constraint;
the source catches the exception, leaving the catalog unchanged. -/
def insert_file_record (filename filetype localdest : String)
    (db : List FileRecord) : List FileRecord :=
  if db.any (fun r => r.filename == filename) then db
  else db ++ [{ filename := filename, filetype := filetype,
                localstatus := 1, localdestination := some localdest,
                datetime := (extract_datetime_from_filename filename).map
                  (fun t => t.1) }]

/-- `databasewrite.update_file_record_aws`: one UPDATE setting `AWSstatus = 1`
together with the destination, the bucket and the integrity flag, keyed by
filename. -/
def update_file_record_aws (filename dest bucket : String) (integrity : Bool)
    (db : List FileRecord) : List FileRecord :=
  db.map fun r =>
    if r.filename == filename then
      { r with awsStatus := 1, awsDestination := some dest,
               awsBucket := some bucket,
               dataintegrityAWS := if integrity then 1 else 0 }
    else r

/-- `databasewrite.update_file_record_gcp`: the GCP counterpart of the AWS
update. -/
def update_file_record_gcp (filename dest bucket : String) (integrity : Bool)
    (db : List FileRecord) : List FileRecord :=
  db.map fun r =>
    if r.filename == filename then
      { r with gcpStatus := 1, gcpDestination := some dest,
               gcpBucket := some bucket,
               dataintegrityGCP := if integrity then 1 else 0 }
    else r

/-- `databaseread.get_unuploaded_files`: rows where `AWSstatus = 0` (when the
AWS flag is set) OR `GCPstatus = 0` (when the GCP flag is set), projected to
`(filename, filetype, localdestination)`; with neither flag set the source
returns the empty list without querying. -/
def get_unuploaded_files (awsUp gcpUp : Bool) (db : List FileRecord) :
    List (String × String × Option String) :=
  if awsUp || gcpUp then
    (db.filter fun r =>
        (awsUp && r.awsStatus == 0) || (gcpUp && r.gcpStatus == 0)).map
      fun r => (r.filename, r.filetype, r.localdestination)
  else []

/-- `databaseread.is_uploaded_to_aws`: whether the row's `AWSstatus` is 1
(false when the row is missing). -/
def is_uploaded_to_aws (db : List FileRecord) (filename : String) : Bool :=
  match db.find? (fun r => r.filename == filename) with
  | some r => r.awsStatus == 1
  | none => false

/-- `databaseread.is_uploaded_to_gcp`: whether the row's `GCPstatus` is 1. -/
def is_uploaded_to_gcp (db : List FileRecord) (filename : String) : Bool :=
  match db.find? (fun r => r.filename == filename) with
  | some r => r.gcpStatus == 1
  | none => false

/-- SQLite's BINARY text collation, as used by the sweep's
`datetime < ?` comparison: plain lexicographic byte comparison, which for the
ASCII datetime strings stored here is codepoint order. -/
def textLt : List Char → List Char → Bool
  | [], [] => false
  | [], _ :: _ => true
  | _ :: _, [] => false
  | a :: as, b :: bs =>
    if a.toNat < b.toNat then true
    else if b.toNat < a.toNat then false
    else textLt as bs

/-- The row filter of the SELECT in `Storagecleanup.delete_old_files`:
`localstatus = 1 AND datetime < cutoff`, plus per enabled upload flag the
conjuncts `status = 1 AND dataintegrity = 1` for that backend.  A NULL
`datetime` makes the comparison NULL, which the WHERE clause drops. -/
def sweepEligible (awsUp gcpUp : Bool) (cutoff : String) (r : FileRecord) :
    Bool :=
  r.localstatus == 1 &&
  (match r.datetime with
   | some d => textLt d.toList cutoff.toList
   | none => false) &&
  (!awsUp || (r.awsStatus == 1 && r.dataintegrityAWS == 1)) &&
  (!gcpUp || (r.gcpStatus == 1 && r.dataintegrityGCP == 1))

/-- The inner `update_db_record` of the sweep: `localstatus = 0` and
`localdestination = NULL`, keyed by filename. -/
def markLocalDeleted (filename : String) (db : List FileRecord) :
    List FileRecord :=
  db.map fun r =>
    if r.filename == filename then
      { r with localstatus := 0, localdestination := none }
    else r

/-- The externally visible effects of one iteration of the sweep's per-row
loop. -/
inductive SweepAction where
  | removeFile (path : String)
  | removeFailed (path : String)
  | warnAbsent (path : String)
  | updateDb (filename : String)
deriving DecidableEq, Repr

/-- The body of the per-row loop of `delete_old_files`: if the file exists,
attempt `os.remove` (an OSError is caught and logged); otherwise log a
warning; in every case the catalog update follows.  `fileExists` and
`removeFails` are the file system's answers for this row's path. -/
def sweepRowActions (fileExists removeFails : String → Bool)
    (filename path : String) : List SweepAction :=
  (if fileExists path then
    if removeFails path then [SweepAction.removeFailed path]
    else [SweepAction.removeFile path]
  else [SweepAction.warnAbsent path]) ++ [SweepAction.updateDb filename]

/-- `Storagecleanup.delete_old_files`: fetch the rows passing `sweepEligible`,
then for each one attempt the local removal and unconditionally run the
catalog update.  Returns the catalog after all updates together with the
ordered trace of file-system and catalog effects. -/
def delete_old_files (awsUp gcpUp : Bool) (cutoff : String)
    (fileExists removeFails : String → Bool) (db : List FileRecord) :
    List FileRecord × List SweepAction :=
  let selected := db.filter (sweepEligible awsUp gcpUp cutoff)
  (selected.foldl (fun acc r => markLocalDeleted r.filename acc) db,
   selected.flatMap fun r =>
     sweepRowActions fileExists removeFails r.filename
       (r.localdestination.getD ""))

/-- Outcome of one adapter put call (`upload_to_s3` / `upload_to_gcs`):
success carries the content digest the backend reports for the stored object;
failure is the adapter's caught-exception path, which also sends one
notification email before returning `(False, None)`. -/
inductive PutResult where
  | success (digest : String)
  | fail
deriving DecidableEq, Repr

/-- Outcome of `utils.calculate_md5` on the local file: the digest, or the
exceptional path (unreadable file). -/
inductive Md5Result where
  | ok (digest : String)
  | err
deriving DecidableEq, Repr

/-- `utils.data_integrity_check`: recompute the local file's digest and
compare it with the backend-reported digest; any exception yields `False`. -/
def data_integrity_check (localMd5 : Md5Result) (cloudMd5 : String) : Bool :=
  match localMd5 with
  | .ok d => d == cloudMd5
  | .err => false

/-- Observable outcome of one per-backend retry block of
`upload_files_to_cloud`. -/
structure BackendRun where
  uploaded : Bool
  integrity : Bool
  puts : Nat
  deletes : Nat
  putFailEmails : Nat
  exhaustEmail : Bool
  keyUsed : String
deriving DecidableEq, Repr

/-- The `while attempts < 5` retry loop of one backend block, recursing on the
remaining attempts.  The state mirrors the Python locals: `uploaded` and
`integrity` persist across iterations; a put failure sets `uploaded := False`
and leaves `integrity` untouched; a put success recomputes `integrity` and a
verified match breaks out of the loop; a mismatch deletes the just-uploaded
remote object. -/
def retryLoop (put : Nat → PutResult) (localMd5 : Md5Result) (attempt : Nat)
    (remaining : Nat) (uploaded integrity : Bool) (puts deletes emails : Nat) :
    Bool × Bool × Nat × Nat × Nat :=
  match remaining with
  | 0 => (uploaded, integrity, puts, deletes, emails)
  | r + 1 =>
    match put attempt with
    | .success d =>
      if data_integrity_check localMd5 d then
        (true, true, puts + 1, deletes, emails)
      else
        retryLoop put localMd5 (attempt + 1) r true false (puts + 1)
          (deletes + 1) emails
    | .fail =>
      retryLoop put localMd5 (attempt + 1) r false integrity (puts + 1)
        deletes (emails + 1)

/-- One backend block of `upload_files_to_cloud` (the AWS and the GCS blocks
are textually identical up to the adapter): derive the destination key, run
the retry loop from attempt 0 with both flags `False`, then — only when the
final put did not succeed — log the exhaustion and, when the integrity flag is
also `False` (which holds on that path), send one data-integrity alert. -/
def backendRun (put : Nat → PutResult) (localMd5 : Md5Result)
    (fileName : String) : BackendRun :=
  let key := destinationKey fileName
  let res := retryLoop put localMd5 0 5 false false 0 0 0
  { uploaded := res.1, integrity := res.2.1, puts := res.2.2.1,
    deletes := res.2.2.2.1, putFailEmails := res.2.2.2.2,
    exhaustEmail := !res.1 && !res.2.1, keyUsed := key }

/-- The four flags `upload_files_to_cloud` returns, together with the traces
of the backend blocks that actually ran. -/
structure UploadOutcome where
  awsUploaded : Bool
  dataintegrityAWS : Bool
  gcpUploaded : Bool
  dataintegrityGCP : Bool
  awsRun : Option BackendRun
  gcpRun : Option BackendRun
deriving DecidableEq, Repr

/-- `cloudupload.upload_files_to_cloud`: the AWS block runs when `aws_upload`
is set, the GCS block when `gcp_upload` is set; the four returned flags keep
their `False` initial values for a backend whose block did not run. -/
def upload_files_to_cloud (fileName : String) (awsUp gcpUp : Bool)
    (putAws putGcs : Nat → PutResult) (localMd5 : Md5Result) : UploadOutcome :=
  let a := if awsUp then some (backendRun putAws localMd5 fileName) else none
  let g := if gcpUp then some (backendRun putGcs localMd5 fileName) else none
  { awsUploaded := (a.map (·.uploaded)).getD false,
    dataintegrityAWS := (a.map (·.integrity)).getD false,
    gcpUploaded := (g.map (·.uploaded)).getD false,
    dataintegrityGCP := (g.map (·.integrity)).getD false,
    awsRun := a, gcpRun := g }

/-- The caller-side catalog write after an AWS backend run: both `main_loop`
and `upload_unuploaded_files` run `update_file_record_aws` only under
`if aws_uploaded:`, passing the integrity flag the run computed. -/
def record_aws_outcome (run : BackendRun) (filename dest bucket : String)
    (db : List FileRecord) : List FileRecord :=
  if run.uploaded then update_file_record_aws filename dest bucket run.integrity db
  else db

/-- The caller-side catalog write after a GCS backend run. -/
def record_gcp_outcome (run : BackendRun) (filename dest bucket : String)
    (db : List FileRecord) : List FileRecord :=
  if run.uploaded then update_file_record_gcp filename dest bucket run.integrity db
  else db

/-- The AWS arm of `upload_unuploaded_files` for one fetched row: skipped when
the filename does not parse (the `if year and month:` guard) or when the AWS
flag is off or `is_uploaded_to_aws` already holds; otherwise the source builds
`aws_destination = "year/month/filename"` and calls `upload_files_to_cloud`
with `file_name := aws_destination`, which derives the key it passes to every
put.  Returns that key, or `none` when the row is skipped. -/
def backfill_aws_put_key (awsUp : Bool) (db : List FileRecord)
    (filename : String) : Option String :=
  match extract_datetime_from_filename filename with
  | none => none
  | some (_, y, m) =>
    if awsUp && !is_uploaded_to_aws db filename then
      some (destinationKey (y ++ "/" ++ m ++ "/" ++ filename))
    else none

/-- How one attempt of the wrapped operation (including its commit)
terminates, as distinguished by the handlers of
`databasewrite.execute_db_operation`. -/
inductive DbAttempt where
  | ok
  | locked
  | otherOperational
  | otherException
deriving DecidableEq, Repr

/-- How `execute_db_operation` returned to its caller.  Every handler returns;
no modeled outcome propagates an exception. -/
inductive DbExit where
  | committed
  | abortedOperational
  | abortedException
  | exhausted
deriving DecidableEq, Repr

/-- Observable outcome of `execute_db_operation`: the exit taken, the number
of times the wrapped operation ran, the number of fixed `delay`-second sleeps,
and the number of notification emails sent. -/
structure DbRun where
  exit : DbExit
  calls : Nat
  sleeps : Nat
  emails : Nat
deriving DecidableEq, Repr

/-- The `for attempt in range(retries)` loop of `execute_db_operation`,
recursing on the remaining attempts: success commits and returns; a locked
error logs, sleeps the fixed delay and retries; any other operational error
logs and returns; any other exception logs, emails and returns; falling off
the loop logs, emails and returns. -/
def dbLoop (outcome : Nat → DbAttempt) (attempt remaining calls sleeps : Nat) :
    DbRun :=
  match remaining with
  | 0 => { exit := .exhausted, calls := calls, sleeps := sleeps, emails := 1 }
  | r + 1 =>
    match outcome attempt with
    | .ok =>
      { exit := .committed, calls := calls + 1, sleeps := sleeps, emails := 0 }
    | .locked => dbLoop outcome (attempt + 1) r (calls + 1) (sleeps + 1)
    | .otherOperational =>
      { exit := .abortedOperational, calls := calls + 1, sleeps := sleeps,
        emails := 0 }
    | .otherException =>
      { exit := .abortedException, calls := calls + 1, sleeps := sleeps,
        emails := 1 }

/-- `databasewrite.execute_db_operation` with its default `retries=5`,
parameterized by how each attempt of the wrapped operation turns out. -/
def execute_db_operation (outcome : Nat → DbAttempt) : DbRun :=
  dbLoop outcome 0 5 0 0

/-- The catalog-mutating steps the program performs, each as its call sites
drive it: registration of a fresh artifact, the caller-side write after a
per-backend replication run (guarded by the run's uploaded flag and carrying
the integrity flag the run computed), and the retention sweep. -/
inductive ProgStep where
  | register (filename filetype localdest : String)
  | replicateAws (filename dest bucket : String) (put : Nat → PutResult)
      (localMd5 : Md5Result)
  | replicateGcp (filename dest bucket : String) (put : Nat → PutResult)
      (localMd5 : Md5Result)
  | sweep (awsUp gcpUp : Bool) (cutoff : String)
      (fileExists removeFails : String → Bool)

/-- Effect of one program step on the catalog. -/
def applyStep (db : List FileRecord) : ProgStep → List FileRecord
  | .register fn ft dest => insert_file_record fn ft dest db
  | .replicateAws fn dest bucket put md5 =>
    record_aws_outcome (backendRun put md5 fn) fn dest bucket db
  | .replicateGcp fn dest bucket put md5 =>
    record_gcp_outcome (backendRun put md5 fn) fn dest bucket db
  | .sweep a g cutoff fe rf => (delete_old_files a g cutoff fe rf db).1

/-- The catalog reached from the empty store by a sequence of program
steps. -/
def reachable (steps : List ProgStep) : List FileRecord :=
  steps.foldl applyStep []

/-! ## Claim C4: destination keys -/

/-- Claim C4: for the direct replication path the key passed to put is the
single-prefixed `year/monthName/filename`; but a backfill resubmission passes
the already-prefixed `aws_destination` back into `upload_files_to_cloud` as
`file_name`, whose re-derivation parses the embedded timestamp again and
prefixes a second time — the key carries the `year/monthName` prefix twice,
while the catalog's `AWSdestination` keeps the single-prefixed value. -/
theorem backfill_key_carries_prefix_twice :
    destinationKey "image_capture_2024-08-09_14-30-00.jpg"
      = "2024/August/image_capture_2024-08-09_14-30-00.jpg"
    ∧ backfill_aws_put_key true
        [{ filename := "image_capture_2024-08-09_14-30-00.jpg",
           filetype := "image" }]
        "image_capture_2024-08-09_14-30-00.jpg"
      = some "2024/August/2024/August/image_capture_2024-08-09_14-30-00.jpg" := by
  exact ⟨by decide, by decide⟩

/-! ## Claim C5: malformed filenames -/

/-- Claim C5: parsing `badname.jpg` fails non-fatally and both the backfill
pass (the `if year and month:` guard) and the sweep query (NULL `datetime`)
skip the artifact; but the direct replication path does not skip it:
`upload_files_to_cloud` builds the key `None/None/badname.jpg` from the
failed parse and attempts all five puts with it. -/
theorem malformed_filename_uploaded_with_none_key :
    extract_datetime_from_filename "badname.jpg" = none
    ∧ backfill_aws_put_key true
        [{ filename := "badname.jpg", filetype := "image" }] "badname.jpg"
      = none
    ∧ (insert_file_record "badname.jpg" "image" "/data/badname.jpg" []).filter
        (sweepEligible true true "2025-01-01") = []
    ∧ (upload_files_to_cloud "badname.jpg" true false (fun _ => PutResult.fail)
        (fun _ => PutResult.fail) (Md5Result.ok "m")).awsRun
      = some { uploaded := false, integrity := false, puts := 5, deletes := 0,
               putFailEmails := 5, exhaustEmail := true,
               keyUsed := "None/None/badname.jpg" } := by
  exact ⟨by decide, by decide, by decide, by decide⟩

/-! ## Claim C2: exhausted put attempts -/

/-- Claim C2 counterexample: with every put attempt failing, the adapter's
failure handler sends one email per attempt and the run then sends the
exhaustion alert — six notifications in total, not exactly one. -/
theorem all_puts_failed_sends_six_emails :
    (backendRun (fun _ => PutResult.fail) (Md5Result.ok "d")
        "image_capture_2024-08-09_14-30-00.jpg").putFailEmails
      + (if (backendRun (fun _ => PutResult.fail) (Md5Result.ok "d")
            "image_capture_2024-08-09_14-30-00.jpg").exhaustEmail
         then 1 else 0) = 6
    ∧ (6 : Nat) ≠ 1 := by
  exact ⟨by decide, by decide⟩

/-- Claim C2 (amended): when put fails on all five attempts the run returns
uploaded and integrity both false, sends five adapter-failure emails plus
exactly one exhaustion alert, performs no remote delete, and the callers —
whose catalog update is guarded by the uploaded flag — write nothing, leaving
the backend's status at the schema's shared not-attempted/failed encoding 0
with integrity 0 and the local file untouched. -/
theorem exhausted_run_fails_without_catalog_write (put : Nat → PutResult)
    (md5 : Md5Result) (fn dest bucket : String) (db : List FileRecord)
    (h0 : put 0 = PutResult.fail) (h1 : put 1 = PutResult.fail)
    (h2 : put 2 = PutResult.fail) (h3 : put 3 = PutResult.fail)
    (h4 : put 4 = PutResult.fail) :
    backendRun put md5 fn
      = { uploaded := false, integrity := false, puts := 5, deletes := 0,
          putFailEmails := 5, exhaustEmail := true,
          keyUsed := destinationKey fn }
    ∧ record_aws_outcome (backendRun put md5 fn) fn dest bucket db = db
    ∧ record_gcp_outcome (backendRun put md5 fn) fn dest bucket db = db := by
  have hrun : backendRun put md5 fn
      = { uploaded := false, integrity := false, puts := 5, deletes := 0,
          putFailEmails := 5, exhaustEmail := true,
          keyUsed := destinationKey fn } := by
    simp [backendRun, retryLoop, h0, h1, h2, h3, h4]
  refine ⟨hrun, ?_, ?_⟩ <;> simp [record_aws_outcome, record_gcp_outcome, hrun]

/-- Witness for the amended C2 theorem at a concrete environment. -/
theorem exhausted_run_fails_without_catalog_write_witness :
    (fun _ : Nat => PutResult.fail) 0 = PutResult.fail
    ∧ (backendRun (fun _ => PutResult.fail) (Md5Result.ok "d")
          "image_capture_2024-08-09_14-30-00.jpg"
        = { uploaded := false, integrity := false, puts := 5, deletes := 0,
            putFailEmails := 5, exhaustEmail := true,
            keyUsed := destinationKey "image_capture_2024-08-09_14-30-00.jpg" }
      ∧ record_aws_outcome
          (backendRun (fun _ => PutResult.fail) (Md5Result.ok "d")
            "image_capture_2024-08-09_14-30-00.jpg")
          "image_capture_2024-08-09_14-30-00.jpg" "k" "b" [] = []
      ∧ record_gcp_outcome
          (backendRun (fun _ => PutResult.fail) (Md5Result.ok "d")
            "image_capture_2024-08-09_14-30-00.jpg")
          "image_capture_2024-08-09_14-30-00.jpg" "k" "b" [] = []) :=
  ⟨rfl, exhausted_run_fails_without_catalog_write _ _ _ "k" "b" []
    rfl rfl rfl rfl rfl⟩

/-! ## Claim C6: mismatch, mismatch, match -/

/-- Claim C6: with put succeeding on every attempt, a digest mismatch on
attempts 1 and 2 and a match on attempt 3, the run stops after the third put
with uploaded and integrity true, having deleted the remote object exactly
twice (after each mismatch); the caller then records status 1 and
integrity 1. -/
theorem third_attempt_match_verifies (put : Nat → PutResult)
    (m d0 d1 d2 fn dest bucket : String) (rec : FileRecord)
    (h0 : put 0 = PutResult.success d0) (h1 : put 1 = PutResult.success d1)
    (h2 : put 2 = PutResult.success d2)
    (hm0 : (m == d0) = false) (hm1 : (m == d1) = false)
    (hm2 : (m == d2) = true) (hrec : rec.filename = fn) :
    backendRun put (Md5Result.ok m) fn
      = { uploaded := true, integrity := true, puts := 3, deletes := 2,
          putFailEmails := 0, exhaustEmail := false,
          keyUsed := destinationKey fn }
    ∧ record_aws_outcome (backendRun put (Md5Result.ok m) fn) fn dest bucket
        [rec]
      = [{ rec with
             awsStatus := 1, awsDestination := some dest,
             awsBucket := some bucket, dataintegrityAWS := 1 }] := by
  have hrun : backendRun put (Md5Result.ok m) fn
      = { uploaded := true, integrity := true, puts := 3, deletes := 2,
          putFailEmails := 0, exhaustEmail := false,
          keyUsed := destinationKey fn } := by
    simp [backendRun, retryLoop, data_integrity_check, h0, h1, h2, hm0, hm1,
      hm2]
  refine ⟨hrun, ?_⟩
  simp [record_aws_outcome, update_file_record_aws, hrun, hrec]

/-- Witness for the C6 theorem at a concrete environment. -/
theorem third_attempt_match_verifies_witness :
    (("c" : String) == "c") = true
    ∧ (backendRun
          (fun k => if k = 0 then PutResult.success "a"
                    else if k = 1 then PutResult.success "b"
                    else PutResult.success "c")
          (Md5Result.ok "c") "image_capture_2024-08-09_14-30-00.jpg"
        = { uploaded := true, integrity := true, puts := 3, deletes := 2,
            putFailEmails := 0, exhaustEmail := false,
            keyUsed :=
              destinationKey "image_capture_2024-08-09_14-30-00.jpg" }
      ∧ record_aws_outcome
          (backendRun
            (fun k => if k = 0 then PutResult.success "a"
                      else if k = 1 then PutResult.success "b"
                      else PutResult.success "c")
            (Md5Result.ok "c") "image_capture_2024-08-09_14-30-00.jpg")
          "image_capture_2024-08-09_14-30-00.jpg" "k" "b"
          [{ filename := "image_capture_2024-08-09_14-30-00.jpg",
             filetype := "image" }]
        = [{ ({ filename := "image_capture_2024-08-09_14-30-00.jpg",
                filetype := "image" } : FileRecord) with
             awsStatus := 1, awsDestination := some "k",
             awsBucket := some "b", dataintegrityAWS := 1 }]) :=
  ⟨rfl, third_attempt_match_verifies _ "c" "a" "b" "c"
    "image_capture_2024-08-09_14-30-00.jpg" "k" "b" _
    rfl rfl rfl (by decide) (by decide) (by decide) rfl⟩

/-! ## Claim C10: uploaded flag after five mismatches -/

/-- Claim C10: with put succeeding on all five attempts but the digest
mismatching every time, the run returns uploaded true (the flag reflects only
the final put call) and integrity false, has deleted the remote object after
every attempt — including the final one, so no remote copy remains — sends no
notification, and the caller records status 1 with integrity 0. -/
theorem persistent_mismatch_recorded_uploaded_unverified (put : Nat → PutResult)
    (m d0 d1 d2 d3 d4 fn dest bucket : String) (rec : FileRecord)
    (h0 : put 0 = PutResult.success d0) (h1 : put 1 = PutResult.success d1)
    (h2 : put 2 = PutResult.success d2) (h3 : put 3 = PutResult.success d3)
    (h4 : put 4 = PutResult.success d4)
    (hm0 : (m == d0) = false) (hm1 : (m == d1) = false)
    (hm2 : (m == d2) = false) (hm3 : (m == d3) = false)
    (hm4 : (m == d4) = false) (hrec : rec.filename = fn) :
    backendRun put (Md5Result.ok m) fn
      = { uploaded := true, integrity := false, puts := 5, deletes := 5,
          putFailEmails := 0, exhaustEmail := false,
          keyUsed := destinationKey fn }
    ∧ record_aws_outcome (backendRun put (Md5Result.ok m) fn) fn dest bucket
        [rec]
      = [{ rec with
             awsStatus := 1, awsDestination := some dest,
             awsBucket := some bucket, dataintegrityAWS := 0 }] := by
  have hrun : backendRun put (Md5Result.ok m) fn
      = { uploaded := true, integrity := false, puts := 5, deletes := 5,
          putFailEmails := 0, exhaustEmail := false,
          keyUsed := destinationKey fn } := by
    simp [backendRun, retryLoop, data_integrity_check, h0, h1, h2, h3, h4,
      hm0, hm1, hm2, hm3, hm4]
  refine ⟨hrun, ?_⟩
  simp [record_aws_outcome, update_file_record_aws, hrun, hrec]

/-- Witness for the C10 theorem at a concrete environment. -/
theorem persistent_mismatch_recorded_uploaded_unverified_witness :
    (("m" : String) == "d") = false
    ∧ (backendRun (fun _ => PutResult.success "d") (Md5Result.ok "m")
          "image_capture_2024-08-09_14-30-00.jpg"
        = { uploaded := true, integrity := false, puts := 5, deletes := 5,
            putFailEmails := 0, exhaustEmail := false,
            keyUsed :=
              destinationKey "image_capture_2024-08-09_14-30-00.jpg" }
      ∧ record_aws_outcome
          (backendRun (fun _ => PutResult.success "d") (Md5Result.ok "m")
            "image_capture_2024-08-09_14-30-00.jpg")
          "image_capture_2024-08-09_14-30-00.jpg" "k" "b"
          [{ filename := "image_capture_2024-08-09_14-30-00.jpg",
             filetype := "image" }]
        = [{ ({ filename := "image_capture_2024-08-09_14-30-00.jpg",
                filetype := "image" } : FileRecord) with
             awsStatus := 1, awsDestination := some "k",
             awsBucket := some "b", dataintegrityAWS := 0 }]) :=
  ⟨rfl, persistent_mismatch_recorded_uploaded_unverified _ "m" "d" "d" "d" "d"
    "d" "image_capture_2024-08-09_14-30-00.jpg" "k" "b" _
    rfl rfl rfl rfl rfl (by decide) (by decide) (by decide) (by decide)
    (by decide) rfl⟩

/-! ## Claim C8: sweep per-row ordering -/

/-- Claim C8: for every selected row the local-file deletion attempt comes
first and the catalog update runs unconditionally afterwards — the last
action of the row's trace is always the catalog update and the first never
is; an already-absent file yields only a warning before the update (the
crash-rerun case), and an OSError from the removal is caught and still
followed by the update. -/
theorem sweep_row_updates_catalog_after_delete_attempt
    (fe rf : String → Bool) (fn path : String) :
    (sweepRowActions fe rf fn path).getLast? = some (SweepAction.updateDb fn)
    ∧ (sweepRowActions fe rf fn path).head? ≠ some (SweepAction.updateDb fn)
    ∧ sweepRowActions (fun _ => false) rf fn path
        = [SweepAction.warnAbsent path, SweepAction.updateDb fn]
    ∧ sweepRowActions (fun _ => true) (fun _ => true) fn path
        = [SweepAction.removeFailed path, SweepAction.updateDb fn] := by
  unfold sweepRowActions
  by_cases hfe : fe path <;> by_cases hrf : rf path <;> simp [hfe, hrf]

/-- Witness for the C8 theorem at a concrete environment. -/
theorem sweep_row_updates_catalog_after_delete_attempt_witness :
    (sweepRowActions (fun _ => true) (fun _ => false) "f.jpg" "/data/f.jpg").getLast?
      = some (SweepAction.updateDb "f.jpg")
    ∧ (sweepRowActions (fun _ => true) (fun _ => false) "f.jpg" "/data/f.jpg").head?
      ≠ some (SweepAction.updateDb "f.jpg")
    ∧ sweepRowActions (fun _ => false) (fun _ => false) "f.jpg" "/data/f.jpg"
      = [SweepAction.warnAbsent "/data/f.jpg", SweepAction.updateDb "f.jpg"]
    ∧ sweepRowActions (fun _ => true) (fun _ => true) "f.jpg" "/data/f.jpg"
      = [SweepAction.removeFailed "/data/f.jpg", SweepAction.updateDb "f.jpg"] :=
  sweep_row_updates_catalog_after_delete_attempt
    (fun _ => true) (fun _ => false) "f.jpg" "/data/f.jpg"

/-! ## Claim C3: the incomplete-replication query -/

/-- Claim C3 counterexample: a record whose local copy is already gone
(`localstatus = 0`) but whose `AWSstatus` is 0 is returned by
`get_unuploaded_files` — the query has no `localstatus = 1` conjunct. -/
theorem unuploaded_query_returns_locally_deleted_record :
    get_unuploaded_files true false
        [{ filename := "file1.jpg", filetype := "image", localstatus := 0 }]
      = [("file1.jpg", "image", none)]
    ∧ ({ filename := "file1.jpg", filetype := "image", localstatus := 0 }
        : FileRecord).localstatus = 0 := by
  exact ⟨by decide, by decide⟩

/-- Claim C3 (amended): `get_unuploaded_files` returns exactly the
projections of the records whose status for an enabled backend is 0 — with no
condition on local presence, so records with `localstatus = 0` are returned
too — and the backfill pass still never resubmits a record already uploaded
for a backend, because its per-row `is_uploaded_to_*` guard skips it. -/
theorem unuploaded_query_ignores_local_presence (awsUp gcpUp : Bool)
    (db : List FileRecord) (x : String × String × Option String)
    (fn : String) (hup : is_uploaded_to_aws db fn = true) :
    (x ∈ get_unuploaded_files awsUp gcpUp db ↔
      ∃ r ∈ db,
        ((awsUp = true ∧ r.awsStatus = 0) ∨ (gcpUp = true ∧ r.gcpStatus = 0))
        ∧ x = (r.filename, r.filetype, r.localdestination))
    ∧ backfill_aws_put_key awsUp db fn = none := by
  constructor
  · unfold get_unuploaded_files
    by_cases hflag : (awsUp || gcpUp) = true
    · simp only [hflag, if_true, List.mem_map, List.mem_filter]
      constructor
      · rintro ⟨r, ⟨hr, hcond⟩, hx⟩
        refine ⟨r, hr, ?_, hx.symm⟩
        simpa [Bool.or_eq_true, Bool.and_eq_true, beq_iff_eq] using hcond
      · rintro ⟨r, hr, hcond, hx⟩
        refine ⟨r, ⟨hr, ?_⟩, hx.symm⟩
        simpa [Bool.or_eq_true, Bool.and_eq_true, beq_iff_eq] using hcond
    · have ha : awsUp = false := by
        cases awsUp <;> simp_all
      have hg : gcpUp = false := by
        cases gcpUp <;> simp_all
      simp [ha, hg]
  · cases hx : extract_datetime_from_filename fn with
    | none => simp [backfill_aws_put_key, hx]
    | some p =>
      obtain ⟨dt, y, m⟩ := p
      simp [backfill_aws_put_key, hx, hup]

/-- Witness for the amended C3 theorem at a concrete catalog. -/
theorem unuploaded_query_ignores_local_presence_witness :
    is_uploaded_to_aws
        [{ filename := "file1.jpg", filetype := "image", awsStatus := 1 }]
        "file1.jpg" = true
    ∧ ((("file1.jpg", "image", (none : Option String)) ∈
          get_unuploaded_files true true
            [{ filename := "file1.jpg", filetype := "image",
               awsStatus := 1 }] ↔
        ∃ r ∈ ([{ filename := "file1.jpg", filetype := "image",
                  awsStatus := 1 }] : List FileRecord),
          ((true = true ∧ r.awsStatus = 0) ∨ (true = true ∧ r.gcpStatus = 0))
          ∧ ("file1.jpg", "image", (none : Option String))
              = (r.filename, r.filetype, r.localdestination))
      ∧ backfill_aws_put_key true
          [{ filename := "file1.jpg", filetype := "image", awsStatus := 1 }]
          "file1.jpg" = none) :=
  ⟨by decide,
   unuploaded_query_ignores_local_presence true true
     [{ filename := "file1.jpg", filetype := "image", awsStatus := 1 }]
     ("file1.jpg", "image", none) "file1.jpg" (by decide)⟩

/-! ## Claim C9: the retrying catalog-write wrapper -/

/-- The number of operation calls made by `dbLoop` is bounded by the remaining
attempts. -/
lemma dbLoop_calls_le (outcome : Nat → DbAttempt) :
    ∀ remaining attempt calls sleeps,
      (dbLoop outcome attempt remaining calls sleeps).calls
        ≤ calls + remaining := by
  intro remaining
  induction remaining with
  | zero => intro a c s; simp [dbLoop]
  | succ r ih =>
    intro a c s
    cases h : outcome a with
    | ok => simp [dbLoop, h]
    | locked =>
      simp only [dbLoop, h]
      exact le_trans (ih (a + 1) (c + 1) (s + 1)) (by omega)
    | otherOperational => simp [dbLoop, h]
    | otherException => simp [dbLoop, h]

/-- `dbLoop` sends at most one notification email. -/
lemma dbLoop_emails_le (outcome : Nat → DbAttempt) :
    ∀ remaining attempt calls sleeps,
      (dbLoop outcome attempt remaining calls sleeps).emails ≤ 1 := by
  intro remaining
  induction remaining with
  | zero => intro a c s; simp [dbLoop]
  | succ r ih =>
    intro a c s
    cases h : outcome a with
    | ok => simp [dbLoop, h]
    | locked =>
      simp only [dbLoop, h]
      exact ih (a + 1) (c + 1) (s + 1)
    | otherOperational => simp [dbLoop, h]
    | otherException => simp [dbLoop, h]

/-- `dbLoop` exits exhausted exactly when every remaining attempt hits the
locked error. -/
lemma dbLoop_exhausted_iff (outcome : Nat → DbAttempt) :
    ∀ remaining attempt calls sleeps,
      ((dbLoop outcome attempt remaining calls sleeps).exit = DbExit.exhausted
        ↔ ∀ k < remaining, outcome (attempt + k) = DbAttempt.locked) := by
  intro remaining
  induction remaining with
  | zero => intro a c s; simp [dbLoop]
  | succ r ih =>
    intro a c s
    simp only [dbLoop]
    cases h : outcome a with
    | ok =>
      simp only [DbRun.mk.injEq]
      constructor
      · intro hfalse; cases hfalse
      · intro hall
        have h0 := hall 0 (by omega)
        rw [Nat.add_zero, h] at h0
        cases h0
    | locked =>
      rw [ih (a + 1) (c + 1) (s + 1)]
      constructor
      · intro hall k hk
        match k with
        | 0 => simpa using h
        | j + 1 =>
          have := hall j (by omega)
          simpa [Nat.add_assoc, Nat.add_comm 1 j] using this
      · intro hall k hk
        have := hall (k + 1) (by omega)
        simpa [Nat.add_assoc, Nat.add_comm 1 k] using this
    | otherOperational =>
      constructor
      · intro hfalse; cases hfalse
      · intro hall
        have h0 := hall 0 (by omega)
        rw [Nat.add_zero, h] at h0
        cases h0
    | otherException =>
      constructor
      · intro hfalse; cases hfalse
      · intro hall
        have h0 := hall 0 (by omega)
        rw [Nat.add_zero, h] at h0
        cases h0

/-- On exhaustion `dbLoop` ran every attempt, slept the fixed delay after each
locked attempt, and sent exactly one notification. -/
lemma dbLoop_exhausted_stats (outcome : Nat → DbAttempt) :
    ∀ remaining attempt calls sleeps,
      (dbLoop outcome attempt remaining calls sleeps).exit = DbExit.exhausted →
        (dbLoop outcome attempt remaining calls sleeps).emails = 1
        ∧ (dbLoop outcome attempt remaining calls sleeps).sleeps
            = sleeps + remaining
        ∧ (dbLoop outcome attempt remaining calls sleeps).calls
            = calls + remaining := by
  intro remaining
  induction remaining with
  | zero => intro a c s _; simp [dbLoop]
  | succ r ih =>
    intro a c s hex
    cases h : outcome a with
    | ok => simp [dbLoop, h] at hex
    | locked =>
      simp only [dbLoop, h] at hex ⊢
      have := ih (a + 1) (c + 1) (s + 1) hex
      refine ⟨this.1, ?_, ?_⟩ <;> omega
    | otherOperational => simp [dbLoop, h] at hex
    | otherException => simp [dbLoop, h] at hex

/-- A committed `dbLoop` run succeeded on some attempt and every earlier
attempt was the locked error. -/
lemma dbLoop_committed_prefix (outcome : Nat → DbAttempt) :
    ∀ remaining attempt calls sleeps,
      (dbLoop outcome attempt remaining calls sleeps).exit = DbExit.committed →
        ∃ j < remaining, outcome (attempt + j) = DbAttempt.ok
          ∧ (∀ k < j, outcome (attempt + k) = DbAttempt.locked)
          ∧ (dbLoop outcome attempt remaining calls sleeps).calls
              = calls + j + 1 := by
  intro remaining
  induction remaining with
  | zero => intro a c s hex; cases hex
  | succ r ih =>
    intro a c s hex
    cases h : outcome a with
    | ok =>
      simp only [dbLoop, h] at hex ⊢
      exact ⟨0, by omega, by simpa using h, fun k hk => absurd hk (by omega),
        by simp⟩
    | locked =>
      simp only [dbLoop, h] at hex ⊢
      obtain ⟨j, hj, hok, hpre, hcalls⟩ := ih (a + 1) (c + 1) (s + 1) hex
      refine ⟨j + 1, by omega, ?_, ?_, by omega⟩
      · simpa [Nat.add_assoc, Nat.add_comm 1 j] using hok
      · intro k hk
        match k with
        | 0 => simpa using h
        | i + 1 =>
          have := hpre i (by omega)
          simpa [Nat.add_assoc, Nat.add_comm 1 i] using this
    | otherOperational => simp [dbLoop, h] at hex
    | otherException => simp [dbLoop, h] at hex

/-- Claim C9: `execute_db_operation` invokes the wrapped operation at most
five times and retries only after the retryable locked error; it exits
exhausted exactly when all five attempts were locked, in which case it slept
the fixed delay five times and sent exactly one notification; it sends at
most one email on any run, and every modeled outcome ends in a normal return
(the handlers catch every operational error and every other exception, so no
outcome propagates to the caller). -/
theorem catalog_write_retry_bounded (outcome : Nat → DbAttempt) :
    (execute_db_operation outcome).calls ≤ 5
    ∧ (execute_db_operation outcome).emails ≤ 1
    ∧ ((execute_db_operation outcome).exit = DbExit.exhausted
        ↔ ∀ k < 5, outcome k = DbAttempt.locked)
    ∧ ((execute_db_operation outcome).exit = DbExit.exhausted →
        (execute_db_operation outcome).emails = 1
        ∧ (execute_db_operation outcome).sleeps = 5)
    ∧ ((execute_db_operation outcome).exit = DbExit.committed →
        ∃ j < 5, outcome j = DbAttempt.ok
          ∧ (∀ k < j, outcome k = DbAttempt.locked)
          ∧ (execute_db_operation outcome).calls = j + 1) := by
  refine ⟨?_, ?_, ?_, ?_, ?_⟩
  · simpa using dbLoop_calls_le outcome 5 0 0 0
  · exact dbLoop_emails_le outcome 5 0 0 0
  · simpa using dbLoop_exhausted_iff outcome 5 0 0 0
  · intro hex
    have := dbLoop_exhausted_stats outcome 5 0 0 0 hex
    exact ⟨this.1, by simpa using this.2.1⟩
  · intro hcom
    obtain ⟨j, hj, hok, hpre, hcalls⟩ :=
      dbLoop_committed_prefix outcome 5 0 0 0 hcom
    exact ⟨j, hj, by simpa using hok,
      fun k hk => by simpa using hpre k hk, by simpa using hcalls⟩

/-- Witness for the C9 theorem at the all-locked environment. -/
theorem catalog_write_retry_bounded_witness :
    (execute_db_operation (fun _ => DbAttempt.locked)).calls ≤ 5
    ∧ (execute_db_operation (fun _ => DbAttempt.locked)).emails ≤ 1
    ∧ ((execute_db_operation (fun _ => DbAttempt.locked)).exit
          = DbExit.exhausted
        ↔ ∀ k < 5, (fun _ => DbAttempt.locked) k = DbAttempt.locked)
    ∧ ((execute_db_operation (fun _ => DbAttempt.locked)).exit
          = DbExit.exhausted →
        (execute_db_operation (fun _ => DbAttempt.locked)).emails = 1
        ∧ (execute_db_operation (fun _ => DbAttempt.locked)).sleeps = 5)
    ∧ ((execute_db_operation (fun _ => DbAttempt.locked)).exit
          = DbExit.committed →
        ∃ j < 5, (fun _ => DbAttempt.locked) j = DbAttempt.ok
          ∧ (∀ k < j, (fun _ => DbAttempt.locked) k = DbAttempt.locked)
          ∧ (execute_db_operation (fun _ => DbAttempt.locked)).calls
              = j + 1) :=
  catalog_write_retry_bounded (fun _ => DbAttempt.locked)

/-! ## Claim C7: integrity implies uploaded status, and digest provenance -/

/-- The per-record invariant: an integrity flag set to 1 implies the matching
backend status is 1. -/
def IntegrityInv (db : List FileRecord) : Prop :=
  ∀ r ∈ db, (r.dataintegrityAWS = 1 → r.awsStatus = 1)
    ∧ (r.dataintegrityGCP = 1 → r.gcpStatus = 1)

/-- `insert_file_record` preserves the invariant: the fresh row has both
integrity flags 0. -/
lemma integrityInv_insert {db : List FileRecord} (h : IntegrityInv db)
    (fn ft dest : String) : IntegrityInv (insert_file_record fn ft dest db) := by
  unfold insert_file_record
  split
  · exact h
  · intro r hr
    rcases List.mem_append.1 hr with h1 | h2
    · exact h r h1
    · rw [List.mem_singleton] at h2
      subst h2
      exact ⟨fun hfalse => by simp at hfalse, fun hfalse => by simp at hfalse⟩

/-- `update_file_record_aws` preserves the invariant: it sets the AWS status
to 1 together with the integrity flag, and leaves the GCP fields alone. -/
lemma integrityInv_update_aws {db : List FileRecord} (h : IntegrityInv db)
    (fn dest bucket : String) (b : Bool) :
    IntegrityInv (update_file_record_aws fn dest bucket b db) := by
  unfold update_file_record_aws
  intro r hr
  rcases List.mem_map.1 hr with ⟨x, hx, hmap⟩
  by_cases hfn : (x.filename == fn) = true
  · rw [if_pos hfn] at hmap
    subst hmap
    exact ⟨fun _ => rfl, (h x hx).2⟩
  · rw [if_neg hfn] at hmap
    subst hmap
    exact h x hx

/-- `update_file_record_gcp` preserves the invariant. -/
lemma integrityInv_update_gcp {db : List FileRecord} (h : IntegrityInv db)
    (fn dest bucket : String) (b : Bool) :
    IntegrityInv (update_file_record_gcp fn dest bucket b db) := by
  unfold update_file_record_gcp
  intro r hr
  rcases List.mem_map.1 hr with ⟨x, hx, hmap⟩
  by_cases hfn : (x.filename == fn) = true
  · rw [if_pos hfn] at hmap
    subst hmap
    exact ⟨(h x hx).1, fun _ => rfl⟩
  · rw [if_neg hfn] at hmap
    subst hmap
    exact h x hx

/-- `markLocalDeleted` does not touch status or integrity columns, so the
invariant is preserved. -/
lemma integrityInv_mark {db : List FileRecord} (h : IntegrityInv db)
    (fn : String) : IntegrityInv (markLocalDeleted fn db) := by
  unfold markLocalDeleted
  intro r hr
  rcases List.mem_map.1 hr with ⟨x, hx, hmap⟩
  by_cases hfn : (x.filename == fn) = true
  · rw [if_pos hfn] at hmap
    subst hmap
    exact h x hx
  · rw [if_neg hfn] at hmap
    subst hmap
    exact h x hx

/-- The sweep preserves the invariant (it only runs `markLocalDeleted`). -/
lemma integrityInv_sweep {db : List FileRecord} (h : IntegrityInv db)
    (awsUp gcpUp : Bool) (cutoff : String) (fe rf : String → Bool) :
    IntegrityInv (delete_old_files awsUp gcpUp cutoff fe rf db).1 := by
  unfold delete_old_files
  generalize db.filter (sweepEligible awsUp gcpUp cutoff) = sel
  induction sel generalizing db with
  | nil => exact h
  | cons r rest ih =>
    exact ih (integrityInv_mark h r.filename)

/-- Every program step preserves the invariant. -/
lemma integrityInv_applyStep {db : List FileRecord} (h : IntegrityInv db)
    (st : ProgStep) : IntegrityInv (applyStep db st) := by
  cases st with
  | register fn ft dest => exact integrityInv_insert h fn ft dest
  | replicateAws fn dest bucket put md5 =>
    simp only [applyStep, record_aws_outcome]
    split
    · exact integrityInv_update_aws h fn dest bucket _
    · exact h
  | replicateGcp fn dest bucket put md5 =>
    simp only [applyStep, record_gcp_outcome]
    split
    · exact integrityInv_update_gcp h fn dest bucket _
    · exact h
  | sweep a g cutoff fe rf => exact integrityInv_sweep h a g cutoff fe rf

/-- Every reachable catalog satisfies the invariant. -/
lemma integrityInv_reachable (steps : List ProgStep) :
    IntegrityInv (reachable steps) := by
  have hgen : ∀ (l : List ProgStep) (db : List FileRecord), IntegrityInv db →
      IntegrityInv (l.foldl applyStep db) := by
    intro l
    induction l with
    | nil => exact fun db h => h
    | cons st rest ih =>
      intro db h
      exact ih (applyStep db st) (integrityInv_applyStep h st)
  exact hgen steps [] (fun r hr => absurd hr (List.not_mem_nil r))

/-- If the retry loop ends with the integrity flag true, either it started
true or some attempt's put succeeded with a digest the integrity check
accepted. -/
lemma retryLoop_integrity_source (put : Nat → PutResult) (md5 : Md5Result) :
    ∀ remaining attempt u i p d e,
      (retryLoop put md5 attempt remaining u i p d e).2.1 = true →
        i = true ∨ ∃ k, attempt ≤ k ∧ k < attempt + remaining
          ∧ ∃ dg, put k = PutResult.success dg
            ∧ data_integrity_check md5 dg = true := by
  intro remaining
  induction remaining with
  | zero =>
    intro a u i p d e h
    simp only [retryLoop] at h
    exact Or.inl h
  | succ r ih =>
    intro a u i p d e h
    cases hp : put a with
    | success dg =>
      by_cases hchk : data_integrity_check md5 dg = true
      · exact Or.inr ⟨a, le_refl a, by omega, dg, hp, hchk⟩
      · simp only [retryLoop, hp, hchk, if_false, Bool.false_eq_true] at h
        rcases ih (a + 1) true false _ _ _ h with hfalse | ⟨k, hk1, hk2, dg',
          hput, hc⟩
        · cases hfalse
        · exact Or.inr ⟨k, by omega, by omega, dg', hput, hc⟩
    | fail =>
      simp only [retryLoop, hp] at h
      rcases ih (a + 1) false i _ _ _ h with hi | ⟨k, hk1, hk2, dg', hput, hc⟩
      · exact Or.inl hi
      · exact Or.inr ⟨k, by omega, by omega, dg', hput, hc⟩

/-- A backend run reports integrity true only when some attempt below 5 put
the object successfully and the backend's digest equaled the independently
computed local digest. -/
lemma backendRun_integrity_source {put : Nat → PutResult} {md5 : Md5Result}
    {fn : String} (h : (backendRun put md5 fn).integrity = true) :
    ∃ k, k < 5 ∧ ∃ dg, put k = PutResult.success dg
      ∧ md5 = Md5Result.ok dg := by
  have hloop : (retryLoop put md5 0 5 false false 0 0 0).2.1 = true := h
  rcases retryLoop_integrity_source put md5 5 0 false false 0 0 0 hloop with
    hfalse | ⟨k, _, hk, dg, hput, hchk⟩
  · cases hfalse
  · refine ⟨k, by omega, dg, hput, ?_⟩
    cases md5 with
    | ok dloc =>
      simp only [data_integrity_check, beq_iff_eq] at hchk
      rw [hchk]
    | err => simp [data_integrity_check] at hchk

/-- Claim C7: in every catalog state reachable by the program's steps, an
integrity flag set to 1 implies the matching backend status is 1 (the
uploaded/verified encoding); and a run's integrity flag is set true only when
the independently computed local digest equaled the digest the backend
returned for some successful put — never from the put call's mere success. -/
theorem integrity_flag_sound (steps : List ProgStep) (r : FileRecord)
    (hr : r ∈ reachable steps) (put : Nat → PutResult) (md5 : Md5Result)
    (fn : String) (hint : (backendRun put md5 fn).integrity = true) :
    (r.dataintegrityAWS = 1 → r.awsStatus = 1)
    ∧ (r.dataintegrityGCP = 1 → r.gcpStatus = 1)
    ∧ ∃ k, k < 5 ∧ ∃ dg, put k = PutResult.success dg
        ∧ md5 = Md5Result.ok dg :=
  ⟨(integrityInv_reachable steps r hr).1, (integrityInv_reachable steps r hr).2,
   backendRun_integrity_source hint⟩

/-- Witness for the C7 theorem at a concrete run that registers one artifact
and verifies it against AWS. -/
theorem integrity_flag_sound_witness :
    (({ filename := "image_capture_2024-08-09_14-30-00.jpg",
        filetype := "image", awsStatus := 1,
        awsDestination := some "2024/August/image_capture_2024-08-09_14-30-00.jpg",
        awsBucket := some "bkt", localstatus := 1,
        localdestination := some "/data/i.jpg", dataintegrityAWS := 1,
        datetime := some "2024-08-09 14:30:00" } : FileRecord).dataintegrityAWS
        = 1 →
      ({ filename := "image_capture_2024-08-09_14-30-00.jpg",
         filetype := "image", awsStatus := 1,
         awsDestination := some "2024/August/image_capture_2024-08-09_14-30-00.jpg",
         awsBucket := some "bkt", localstatus := 1,
         localdestination := some "/data/i.jpg", dataintegrityAWS := 1,
         datetime := some "2024-08-09 14:30:00" } : FileRecord).awsStatus = 1)
    ∧ (({ filename := "image_capture_2024-08-09_14-30-00.jpg",
          filetype := "image", awsStatus := 1,
          awsDestination := some "2024/August/image_capture_2024-08-09_14-30-00.jpg",
          awsBucket := some "bkt", localstatus := 1,
          localdestination := some "/data/i.jpg", dataintegrityAWS := 1,
          datetime := some "2024-08-09 14:30:00" } : FileRecord).dataintegrityGCP
          = 1 →
        ({ filename := "image_capture_2024-08-09_14-30-00.jpg",
           filetype := "image", awsStatus := 1,
           awsDestination := some "2024/August/image_capture_2024-08-09_14-30-00.jpg",
           awsBucket := some "bkt", localstatus := 1,
           localdestination := some "/data/i.jpg", dataintegrityAWS := 1,
           datetime := some "2024-08-09 14:30:00" } : FileRecord).gcpStatus = 1)
    ∧ ∃ k, k < 5 ∧ ∃ dg,
        (fun _ : Nat => PutResult.success "d") k = PutResult.success dg
        ∧ Md5Result.ok "d" = Md5Result.ok dg :=
  integrity_flag_sound
    [ProgStep.register "image_capture_2024-08-09_14-30-00.jpg" "image"
       "/data/i.jpg",
     ProgStep.replicateAws "image_capture_2024-08-09_14-30-00.jpg"
       "2024/August/image_capture_2024-08-09_14-30-00.jpg" "bkt"
       (fun _ => PutResult.success "d") (Md5Result.ok "d")]
    { filename := "image_capture_2024-08-09_14-30-00.jpg",
      filetype := "image", awsStatus := 1,
      awsDestination := some "2024/August/image_capture_2024-08-09_14-30-00.jpg",
      awsBucket := some "bkt", localstatus := 1,
      localdestination := some "/data/i.jpg", dataintegrityAWS := 1,
      datetime := some "2024-08-09 14:30:00" }
    (by decide)
    (fun _ => PutResult.success "d") (Md5Result.ok "d")
    "image_capture_2024-08-09_14-30-00.jpg" (by decide)

/-! ## Claim C1: the retention sweep selects exactly the eligible rows -/

/-- The two storage backends. -/
inductive Backend where
  | aws
  | gcp
deriving DecidableEq, Repr

/-- The backends required by policy: those enabled by the upload flags. -/
def requiredBackends (awsUp gcpUp : Bool) : List Backend :=
  (if awsUp then [Backend.aws] else [])
    ++ (if gcpUp then [Backend.gcp] else [])

/-- Status uploaded together with integrity verified, per backend, in the
0/1 encoding. -/
def backendVerified (r : FileRecord) : Backend → Bool
  | .aws => r.awsStatus == 1 && r.dataintegrityAWS == 1
  | .gcp => r.gcpStatus == 1 && r.dataintegrityGCP == 1

/-- The spec's words for `queryEligibleForDeletion`: `local_present = true ∧
captured_at < cutoff ∧ ∀ b ∈ requiredBackends, status(b) = verified ∧
integrity(b) = true`, with the captured-at comparison the stored datetime
string against the day-boundary cutoff string. -/
def queryEligibleForDeletionSpec (awsUp gcpUp : Bool) (cutoff : String)
    (r : FileRecord) : Bool :=
  r.localstatus == 1 &&
  (match r.datetime with
   | some dt => textLt dt.toList cutoff.toList
   | none => false) &&
  (requiredBackends awsUp gcpUp).all (backendVerified r)

/-- A list never compares strictly below itself. -/
lemma textLt_irrefl : ∀ cs : List Char, textLt cs cs = false
  | [] => rfl
  | c :: cs => by simp [textLt, textLt_irrefl cs]

/-- A nonempty list never compares strictly below the empty list. -/
lemma textLt_cons_nil (c : Char) (cs : List Char) :
    textLt (c :: cs) [] = false := rfl

/-- Characters with equal codepoints are equal. -/
lemma charEq_of_toNat_eq {a b : Char} (h : a.toNat = b.toNat) : a = b := by
  have ha := Char.ofNat_toNat a
  have hb := Char.ofNat_toNat b
  rw [← ha, ← hb, h]

/-- Lexicographic comparison of equal-length prefixes followed by arbitrary
tails: the prefixes decide unless they are equal, in which case the tails
decide. -/
lemma textLt_append : ∀ (xs ys : List Char), xs.length = ys.length →
    ∀ as bs, textLt (xs ++ as) (ys ++ bs)
      = (textLt xs ys || (decide (xs = ys) && textLt as bs))
  | [], [], _, as, bs => by simp [textLt]
  | [], y :: ys, h, as, bs => by simp at h
  | x :: xs, [], h, as, bs => by simp at h
  | x :: xs, y :: ys, h, as, bs => by
    by_cases h1 : x.toNat < y.toNat
    · simp [textLt, h1]
    · by_cases h2 : y.toNat < x.toNat
      · have hne : ¬(x :: xs = y :: ys) := by
          intro he
          injection he with he1 _
          rw [he1] at h2
          omega
        simp [textLt, h1, h2, hne]
      · have hxy : x = y := charEq_of_toNat_eq (by omega)
        subst hxy
        have hlen : xs.length = ys.length := by simpa using h
        have ih := textLt_append xs ys hlen as bs
        simp [textLt, h1, ih, List.cons.injEq]

/-- The length of a fixed-width rendering. -/
lemma padDigits_length : ∀ n a, (padDigits n a).length = n
  | 0, _ => rfl
  | n + 1, a => by simp [padDigits, padDigits_length n]

/-- Codepoint of a digit character. -/
lemma toNat_digitChar (d : Nat) (h : d < 10) :
    (Char.ofNat (48 + d)).toNat = 48 + d := by
  interval_cases d <;> decide

/-- Comparing equal-width zero-padded renderings is comparing the numbers. -/
lemma textLt_padDigits : ∀ n a b, a < 10 ^ n → b < 10 ^ n →
    textLt (padDigits n a) (padDigits n b) = decide (a < b)
  | 0, a, b, ha, hb => by
    have ha0 : a = 0 := by simpa using ha
    have hb0 : b = 0 := by simpa using hb
    subst ha0; subst hb0
    simp [padDigits, textLt]
  | n + 1, a, b, ha, hb => by
    have hpos : 0 < 10 ^ n := Nat.pos_pow_of_pos n (by omega)
    have hmul : 10 ^ (n + 1) = 10 ^ n * 10 := by ring
    have hda : a / 10 ^ n < 10 := by
      rw [Nat.div_lt_iff_lt_mul hpos]
      omega
    have hdb : b / 10 ^ n < 10 := by
      rw [Nat.div_lt_iff_lt_mul hpos]
      omega
    simp only [padDigits, textLt, toNat_digitChar _ hda, toNat_digitChar _ hdb]
    by_cases h1 : a / 10 ^ n < b / 10 ^ n
    · have hab : a < b := Nat.lt_of_div_lt_div h1
      simp [h1, hab]
    · by_cases h2 : b / 10 ^ n < a / 10 ^ n
      · have hba : b < a := Nat.lt_of_div_lt_div h2
        have hnab : ¬a < b := by omega
        simp [h1, h2, hnab]
      · have ihx := textLt_padDigits n (a % 10 ^ n) (b % 10 ^ n)
          (Nat.mod_lt _ hpos) (Nat.mod_lt _ hpos)
        have hq : a / 10 ^ n = b / 10 ^ n := by omega
        have hmod : (a % 10 ^ n < b % 10 ^ n) ↔ (a < b) := by
          have h1' := Nat.div_add_mod a (10 ^ n)
          have h2' := Nat.div_add_mod b (10 ^ n)
          rw [hq] at h1'
          omega
        simp [h1, h2, ihx]
        exact hmod

/-- Equality of equal-width zero-padded renderings is equality of the
numbers. -/
lemma decide_padDigits_eq (n a b : Nat) (ha : a < 10 ^ n) (hb : b < 10 ^ n) :
    decide (padDigits n a = padDigits n b) = decide (a = b) := by
  rcases Nat.lt_trichotomy a b with h | h | h
  · have ht := textLt_padDigits n a b ha hb
    have hne : padDigits n a ≠ padDigits n b := by
      intro he
      rw [he, textLt_irrefl] at ht
      simp [h] at ht
    exact decide_eq_decide.mpr (iff_of_false hne (Nat.ne_of_lt h))
  · subst h
    exact decide_eq_decide.mpr (iff_of_true rfl rfl)
  · have ht := textLt_padDigits n b a hb ha
    have hne : padDigits n a ≠ padDigits n b := by
      intro he
      rw [← he, textLt_irrefl] at ht
      simp [h] at ht
    exact decide_eq_decide.mpr
      (iff_of_false hne (Ne.symm (Nat.ne_of_lt h)))

/-- Four-digit fields compare numerically. -/
lemma textLt_pad4 (a b : Nat) (ha : a < 10000) (hb : b < 10000) :
    textLt (pad4 a) (pad4 b) = decide (a < b) := by
  have h4 : (10 : Nat) ^ 4 = 10000 := by norm_num
  exact textLt_padDigits 4 a b (by omega) (by omega)

/-- Four-digit fields are equal exactly when the numbers are. -/
lemma decide_pad4_eq (a b : Nat) (ha : a < 10000) (hb : b < 10000) :
    decide (pad4 a = pad4 b) = decide (a = b) := by
  have h4 : (10 : Nat) ^ 4 = 10000 := by norm_num
  exact decide_padDigits_eq 4 a b (by omega) (by omega)

/-- Two-digit fields compare numerically. -/
lemma textLt_pad2 (a b : Nat) (ha : a < 100) (hb : b < 100) :
    textLt (pad2 a) (pad2 b) = decide (a < b) := by
  have h2 : (10 : Nat) ^ 2 = 100 := by norm_num
  exact textLt_padDigits 2 a b (by omega) (by omega)

/-- Two-digit fields are equal exactly when the numbers are. -/
lemma decide_pad2_eq (a b : Nat) (ha : a < 100) (hb : b < 100) :
    decide (pad2 a = pad2 b) = decide (a = b) := by
  have h2 : (10 : Nat) ^ 2 = 100 := by norm_num
  exact decide_padDigits_eq 2 a b (by omega) (by omega)

/-- The SQL string comparison of a stored datetime string against a
day-boundary cutoff string is chronological comparison of the capture date
against the cutoff date: a timestamp on the cutoff day itself is not below
the cutoff, so "strictly before the day-boundary-normalized cutoff" is
exactly what the query tests. -/
lemma textLt_datetime_date (t : CaptureTime) (y mo d : Nat)
    (hty : t.year < 10000) (hy : y < 10000) (htm : t.month < 100)
    (hmo : mo < 100) (htd : t.day < 100) (hd : d < 100) :
    textLt (fmtDatetime t).toList (fmtDate y mo d).toList
      = (decide (t.year < y) || (decide (t.year = y)
          && (decide (t.month < mo) || (decide (t.month = mo)
             && decide (t.day < d))))) := by
  have hfmt1 : (fmtDatetime t).toList
      = pad4 t.year ++ (['-'] ++ (pad2 t.month ++ (['-'] ++ (pad2 t.day
          ++ (' ' :: (pad2 t.hour ++ [':'] ++ pad2 t.minute ++ [':']
             ++ pad2 t.second)))))) := by
    simp [fmtDatetime, String.toList]
  have hfmt2 : (fmtDate y mo d).toList
      = pad4 y ++ (['-'] ++ (pad2 mo ++ (['-'] ++ (pad2 d ++ [])))) := by
    simp [fmtDate, String.toList]
  rw [hfmt1, hfmt2]
  rw [textLt_append (pad4 t.year) (pad4 y)
    (by simp [pad4, padDigits_length])]
  rw [textLt_append ['-'] ['-'] rfl]
  rw [textLt_append (pad2 t.month) (pad2 mo)
    (by simp [pad2, padDigits_length])]
  rw [textLt_append ['-'] ['-'] rfl]
  rw [textLt_append (pad2 t.day) (pad2 d)
    (by simp [pad2, padDigits_length])]
  rw [textLt_pad4 t.year y hty hy, decide_pad4_eq t.year y hty hy,
    textLt_pad2 t.month mo htm hmo, decide_pad2_eq t.month mo htm hmo,
    textLt_pad2 t.day d htd hd]
  simp [textLt, textLt_cons_nil]

/-- The code predicate of the sweep's SELECT coincides with the
spec-worded eligibility predicate over required backends. -/
lemma sweepEligible_eq_spec (awsUp gcpUp : Bool) (cutoff : String)
    (r : FileRecord) :
    sweepEligible awsUp gcpUp cutoff r
      = queryEligibleForDeletionSpec awsUp gcpUp cutoff r := by
  cases awsUp <;> cases gcpUp <;>
    simp [sweepEligible, queryEligibleForDeletionSpec, requiredBackends,
      backendVerified, Bool.and_assoc]

/-- `markLocalDeleted` as a row-wise map. -/
lemma markLocalDeleted_eq_map (fn : String) (db : List FileRecord) :
    markLocalDeleted fn db = db.map (fun y =>
      if y.filename == fn then
        { y with localstatus := 0, localdestination := none } else y) := rfl

/-- Folding the per-selected-row catalog updates acts on each catalog row
independently. -/
lemma sweep_foldl_eq_map (sel : List FileRecord) :
    ∀ db : List FileRecord,
      sel.foldl (fun acc r => markLocalDeleted r.filename acc) db
        = db.map (fun x => sel.foldl (fun y r =>
            if y.filename == r.filename then
              { y with localstatus := 0, localdestination := none } else y)
            x) := by
  induction sel with
  | nil => intro db; simp
  | cons r rest ih =>
    intro db
    simp only [List.foldl_cons]
    rw [ih (markLocalDeleted r.filename db), markLocalDeleted_eq_map,
      List.map_map]
    rfl

/-- One row under the per-selected-row fold: the row is cleared exactly when
some selected row carries its filename. -/
lemma clear_foldl_char : ∀ (sel : List FileRecord) (x : FileRecord),
    sel.foldl (fun y r =>
        if y.filename == r.filename then
          { y with localstatus := 0, localdestination := none } else y) x
      = if sel.any (fun r => x.filename == r.filename) then
          { x with localstatus := 0, localdestination := none } else x := by
  intro sel
  induction sel with
  | nil => intro x; simp
  | cons r rest ih =>
    intro x
    by_cases h : (x.filename == r.filename) = true
    · simp only [List.foldl_cons, List.any_cons, h, if_true, Bool.true_or]
      rw [ih]
      simp
    · have hfalse : (x.filename == r.filename) = false := by
        simpa using h
      simp only [List.foldl_cons, List.any_cons, hfalse, Bool.false_eq_true,
        if_false, Bool.false_or]
      exact ih x

/-- With unique filenames, a row's filename occurs among the filtered rows
exactly when the row itself passes the filter. -/
lemma any_filter_filename (db : List FileRecord) (p : FileRecord → Bool)
    (hnd : (db.map (fun x => x.filename)).Nodup)
    (x : FileRecord) (hx : x ∈ db) :
    (db.filter p).any (fun r => x.filename == r.filename) = p x := by
  cases hpx : p x
  · cases hany : (db.filter p).any (fun r => x.filename == r.filename)
    · rfl
    · exfalso
      obtain ⟨r, hrmem, hreq⟩ := List.any_eq_true.1 hany
      obtain ⟨hrdb, hrp⟩ := List.mem_filter.1 hrmem
      have hxr : x = r :=
        List.inj_on_of_nodup_map hnd hx hrdb (by simpa using hreq)
      rw [← hxr, hpx] at hrp
      cases hrp
  · exact List.any_eq_true.2 ⟨x, List.mem_filter.2 ⟨hx, hpx⟩, by simp⟩

/-- The sweep's catalog effect: with unique filenames, exactly the rows
passing the SELECT predicate are cleared. -/
lemma delete_old_files_db_eq (awsUp gcpUp : Bool) (cutoff : String)
    (fe rf : String → Bool) (db : List FileRecord)
    (hnd : (db.map (fun x => x.filename)).Nodup) :
    (delete_old_files awsUp gcpUp cutoff fe rf db).1
      = db.map (fun x => if sweepEligible awsUp gcpUp cutoff x then
          { x with localstatus := 0, localdestination := none } else x) := by
  simp only [delete_old_files]
  rw [sweep_foldl_eq_map]
  apply List.map_congr_left
  intro x hx
  rw [clear_foldl_char]
  rw [any_filter_filename db _ hnd x hx]

/-- Claim C1: the sweep's SELECT predicate coincides with the spec's
eligibility predicate over the backends required by the upload flags; with
unique filenames the sweep clears `localstatus` (and the local path) for
exactly the rows satisfying that predicate; every file-system action of the
sweep belongs to a selected row, so a row with an unverified required backend
is untouched and keeps its local file; and the stored-datetime string
comparison against the day-boundary cutoff is chronological date
comparison — strictly before the normalized cutoff. -/
theorem sweep_clears_exactly_eligible (awsUp gcpUp : Bool) (cutoff : String)
    (fe rf : String → Bool) (db : List FileRecord) (r : FileRecord)
    (t : CaptureTime) (y mo d : Nat)
    (hnd : (db.map (fun x => x.filename)).Nodup)
    (hty : t.year < 10000) (hy : y < 10000) (htm : t.month < 100)
    (hmo : mo < 100) (htd : t.day < 100) (hd : d < 100) :
    sweepEligible awsUp gcpUp cutoff r
      = queryEligibleForDeletionSpec awsUp gcpUp cutoff r
    ∧ (delete_old_files awsUp gcpUp cutoff fe rf db).1
        = db.map (fun x =>
            if queryEligibleForDeletionSpec awsUp gcpUp cutoff x then
              { x with localstatus := 0, localdestination := none } else x)
    ∧ (delete_old_files awsUp gcpUp cutoff fe rf db).2
        = (db.filter
            (queryEligibleForDeletionSpec awsUp gcpUp cutoff)).flatMap
            (fun x => sweepRowActions fe rf x.filename
              (x.localdestination.getD ""))
    ∧ textLt (fmtDatetime t).toList (fmtDate y mo d).toList
        = (decide (t.year < y) || (decide (t.year = y)
            && (decide (t.month < mo) || (decide (t.month = mo)
               && decide (t.day < d))))) := by
  have hfun : sweepEligible awsUp gcpUp cutoff
      = queryEligibleForDeletionSpec awsUp gcpUp cutoff :=
    funext (sweepEligible_eq_spec awsUp gcpUp cutoff)
  refine ⟨sweepEligible_eq_spec awsUp gcpUp cutoff r, ?_, ?_,
    textLt_datetime_date t y mo d hty hy htm hmo htd hd⟩
  · rw [delete_old_files_db_eq awsUp gcpUp cutoff fe rf db hnd, hfun]
  · simp only [delete_old_files]
    rw [hfun]

/-- A fully verified old row for the sweep witness. -/
def sweepRowA : FileRecord :=
  { filename := "a.jpg", filetype := "image", gcpStatus := 1, awsStatus := 1,
    localstatus := 1, localdestination := some "/data/a.jpg",
    dataintegrityAWS := 1, dataintegrityGCP := 1,
    datetime := some "2024-08-09 14:30:00" }

/-- An old row missing AWS integrity for the sweep witness. -/
def sweepRowB : FileRecord :=
  { filename := "b.jpg", filetype := "image", gcpStatus := 1, awsStatus := 1,
    localstatus := 1, localdestination := some "/data/b.jpg",
    dataintegrityAWS := 0, dataintegrityGCP := 1,
    datetime := some "2024-08-09 14:30:00" }

/-- Witness for the C1 theorem at a concrete two-row catalog. -/
theorem sweep_clears_exactly_eligible_witness :
    (([sweepRowA, sweepRowB].map (fun x => x.filename)).Nodup)
    ∧ ((2024 : Nat) < 10000) ∧ ((8 : Nat) < 100) ∧ ((9 : Nat) < 100)
    ∧ ((12 : Nat) < 100)
    ∧ (sweepEligible true true "2024-09-12" sweepRowB
        = queryEligibleForDeletionSpec true true "2024-09-12" sweepRowB
      ∧ (delete_old_files true true "2024-09-12" (fun _ => true)
            (fun _ => false) [sweepRowA, sweepRowB]).1
          = [sweepRowA, sweepRowB].map (fun x =>
              if queryEligibleForDeletionSpec true true "2024-09-12" x then
                { x with localstatus := 0, localdestination := none } else x)
      ∧ (delete_old_files true true "2024-09-12" (fun _ => true)
            (fun _ => false) [sweepRowA, sweepRowB]).2
          = ([sweepRowA, sweepRowB].filter
              (queryEligibleForDeletionSpec true true "2024-09-12")).flatMap
              (fun x => sweepRowActions (fun _ => true) (fun _ => false)
                x.filename (x.localdestination.getD ""))
      ∧ textLt
            (fmtDatetime
              { year := 2024, month := 8, day := 9, hour := 14, minute := 30,
                second := 0 }).toList
            (fmtDate 2024 9 12).toList
          = (decide ((2024 : Nat) < 2024) || (decide ((2024 : Nat) = 2024)
              && (decide ((8 : Nat) < 9) || (decide ((8 : Nat) = 9)
                 && decide ((9 : Nat) < 12)))))) :=
  ⟨by decide, by decide, by decide, by decide, by decide,
   sweep_clears_exactly_eligible true true "2024-09-12" (fun _ => true)
     (fun _ => false) [sweepRowA, sweepRowB] sweepRowB
     { year := 2024, month := 8, day := 9, hour := 14, minute := 30,
       second := 0 } 2024 9 12
     (by decide) (by decide) (by decide) (by decide) (by decide) (by decide)
     (by decide)⟩

end Collector
